import Mathlib

/-!
Verification of the auto-report pipeline (statistics computation, LLM response
normalization and retry, report assembly) against its natural-language
specification.  The Python sources are shallowly embedded as Lean definitions:
pure computations become Lean functions, the fallible LLM call becomes an
Except-valued function, and the retry loop becomes bounded recursion.
-/

namespace AutoReport

/-! ## Embedding of src/ai_summary.py (AiSummary.generate_ai_summary) -/

/-- Model of a message object carrying an optional text content, as in the
new-style OpenAI ChatCompletion response shape.  A content of none models a
Python None value stored in the content field. -/
structure MsgObj where
  content : Option String
deriving DecidableEq, Repr

/-- Model of one element of the choices list of an object-style response.
The message field is none when the element has no message attribute, so the
hasattr check on it fails. -/
structure ObjChoice where
  message : Option MsgObj
deriving DecidableEq, Repr

/-- Model of the raw value returned by the model callable, covering the duck
typed shapes distinguished by the source: an object (with an optional choices
attribute, an optional text attribute, and a string form), or a dict (with an
optional choices key, each choice holding an optional message dict with an
optional content entry, and a string form). -/
inductive Response where
  | obj (choices : Option (List ObjChoice)) (text : Option String) (str : String)
  | dict (choices : Option (List (Option (Option String)))) (str : String)
deriving DecidableEq, Repr

/-- Model of Python str.strip on the character list of a string: drop
whitespace from the front, then from the back. -/
def pyStrip (s : String) : String :=
  ⟨(((s.data.dropWhile Char.isWhitespace).reverse.dropWhile Char.isWhitespace).reverse : List Char)⟩

/-- Embedding of the response-shape normalization in
AiSummary.generate_ai_summary (src/ai_summary.py lines 99-116): try, in order,
the object choices[0].message.content shape, the dict choices shape, the text
attribute, and finally the string form of the whole response.  An error value
models an exception raised while evaluating a branch (IndexError on an empty
choices list) or the ValueError raised when the extracted report is None. -/
def extract : Response → Except String String
  | .obj (some []) _ _ => .error "IndexError: list index out of range"
  | .obj (some (c :: _)) text s =>
    match c.message with
    | some m =>
      match m.content with
      | some t => .ok t
      | none => .error "ValueError: Model response did not contain extractable text"
    | none =>
      match text with
      | some t => .ok t
      | none => .ok s
  | .obj none text s =>
    match text with
    | some t => .ok t
    | none => .ok s
  | .dict (some []) _ => .error "IndexError: list index out of range"
  | .dict (some (c :: _)) _ =>
    match c with
    | some (some t) => .ok t
    | some none => .error "ValueError: Model response did not contain extractable text"
    | none => .error "ValueError: Model response did not contain extractable text"
  | .dict none s => .ok s

/-- Embedding of the prompt construction in AiSummary.generate_ai_summary
(src/ai_summary.py lines 61-78).  The context is an optional mapping; an empty
mapping is falsy in the source language, so it adds no context section. -/
def buildPrompt (csv_data : String) (context : Option (List (String × String))) : String :=
  let base := ["You are a data analyst.",
    "Given the following CSV summary/data, provide a concise, clear analysis and actionable insights.",
    "CSV Data Summary:", csv_data]
  let parts :=
    match context with
    | none => base
    | some [] => base
    | some ctx => base ++ ["", "Additional Analysis Context:"] ++
        ctx.map (fun kv => "- " ++ kv.1 ++ ": " ++ kv.2)
  String.intercalate "\n" parts

/-- Model of the LLM backend over the sequence of calls the retry loop makes:
the argument is the zero-based index of the call, then the prompt passed to the
callable; an error value models the callable raising an exception. -/
def Backend : Type := Nat → String → Except String Response

/-- Single attempt of the call-and-extract sequence inside the retry loop of
AiSummary.generate_ai_summary: the model call and the extraction both sit in
the same try block, and a successful extraction is stripped and returned. -/
def attemptOnce (model : Backend) (i : Nat) (prompt : String) : Except String String :=
  match model i prompt with
  | .error e => .error e
  | .ok r =>
    match extract r with
    | .error e => .error e
    | .ok t => .ok (pyStrip t)

/-- Embedding of the retry loop of AiSummary.generate_ai_summary
(src/ai_summary.py lines 83-127): iterate over attempt indices, return the
first successful stripped text, and return the pair of the result (none after
exhaustion, modeling the final return None) together with the number of model
calls actually made. -/
def retryLoop (model : Backend) (prompt : String) : Nat → Nat → Option String × Nat
  | _, 0 => (none, 0)
  | i, r + 1 =>
    match attemptOnce model i prompt with
    | .ok t => (some t, 1)
    | .error _ =>
      let rest := retryLoop model prompt (i + 1) r
      (rest.1, rest.2 + 1)

/-- Value of max_retries in AiSummary.generate_ai_summary. -/
def max_retries : Nat := 2

/-- Embedding of AiSummary.generate_ai_summary: build the prompt, run the
bounded retry loop, return the stripped narrative or none after exhausting
max_retries attempts. -/
def generate_ai_summary (model : Backend) (csv_data : String)
    (context : Option (List (String × String))) : Option String :=
  (retryLoop model (buildPrompt csv_data context) 0 max_retries).1

/-- Number of backend calls generate_ai_summary makes for a given backend and
input. -/
def attemptsMade (model : Backend) (csv_data : String)
    (context : Option (List (String × String))) : Nat :=
  (retryLoop model (buildPrompt csv_data context) 0 max_retries).2

/-! ## Embedding of src/data_ingestion.py (DataIngestion.generate_basic_stats) -/

/-- Model of one typed column of the in-memory table: numeric columns hold
optional rationals (a none cell models a missing value; pandas floats are
modelled as rationals), categorical-like columns hold optional strings, and
datetime columns hold optional integer timestamps. -/
inductive ColData where
  | numeric (vals : List (Option ℚ))
  | categorical (vals : List (Option String))
  | datetime (vals : List (Option Int))
deriving DecidableEq

/-- Model of the input pandas DataFrame: a row count and named typed columns
(each column's value list has the row count as its length in any well-formed
frame). -/
structure DataFrame where
  nrows : Nat
  cols : List (String × ColData)
deriving DecidableEq

/-- Entry of the correlations list built by generate_basic_stats
(src/data_ingestion.py lines 44-51).  The source stores the column names
numeric_cols[i] and numeric_cols[j]; here col1 and col2 are the positions i
and j of those names in the numeric-columns list, which determine the names. -/
structure CorrEntry where
  col1 : Nat
  col2 : Nat
  correlation : ℚ
deriving DecidableEq, Repr

/-- Embedding of the pair enumeration in generate_basic_stats lines 45-51:
for i in range(n), for j in range(i+1, n), append the entry for columns i, j
with the correlation-matrix value at (i, j).  The correlation matrix itself is
computed by the pandas corr call, an external collaborator, so it is a
parameter here. -/
def correlationsList (n : Nat) (corr : Nat → Nat → ℚ) : List CorrEntry :=
  (List.range n).flatMap fun i =>
    (List.range' (i + 1) (n - (i + 1))).map fun j => ⟨i, j, corr i j⟩

/-- Comparison used to model the stable descending sort by absolute
correlation of line 52 (list.sort with key abs and reverse set, which is a
stable sort placing larger absolute values first). -/
def corrLE (a b : CorrEntry) : Bool := |b.correlation| ≤ |a.correlation|

/-- Result of sorting the enumerated correlations by descending absolute
value, stably (line 52). -/
def sortedCorrelations (n : Nat) (corr : Nat → Nat → ℚ) : List CorrEntry :=
  (correlationsList n corr).mergeSort corrLE

/-- Embedding of top_correlations (line 53): the first 5 entries of the
stably sorted correlations list. -/
def topCorrelations (n : Nat) (corr : Nat → Nat → ℚ) : List CorrEntry :=
  (sortedCorrelations n corr).take 5

/-- Non-null values of a categorical column, in order. -/
def colValues (col : List (Option String)) : List String := col.filterMap id

/-- Comparison used to model the descending-count order of pandas
value_counts. -/
def countGE (a b : String × Nat) : Bool := b.2 ≤ a.2

/-- Model of the pandas value_counts call on a categorical column: each
distinct non-null value with its number of occurrences, ordered by descending
count. -/
def valueCounts (col : List (Option String)) : List (String × Nat) :=
  (((colValues col).dedup).map fun v => (v, (colValues col).count v)).mergeSort countGE

/-- Unique-value count of a categorical column, the length of its
value_counts (src/data_ingestion.py line 59). -/
def uniqueCount (col : List (Option String)) : Nat := (valueCounts col).length

/-- Statistics computed for one categorical column by generate_basic_stats
lines 57-65: unique count, the 5 most frequent values, null count, and the
binary flag.  The conditionally added entropy entry is modelled separately by
categoricalEntropy, mirroring the source's two-step dict assembly. -/
structure CatStats where
  unique_values : Nat
  top_5_values : List (String × Nat)
  null_count : Nat
  is_binary : Bool
deriving DecidableEq

/-- Embedding of the categorical per-column statistics of generate_basic_stats
lines 57-65. -/
def categoricalStats (col : List (Option String)) : CatStats :=
  let vc := valueCounts col
  { unique_values := vc.length
    top_5_values := vc.take 5
    null_count := col.countP (fun x => x.isNone)
    is_binary := vc.length == 2 }

/-- Embedding of the entropy computation of generate_basic_stats lines 66-68:
probs is value_counts divided by the total row count len(csv_data) (which for
a column of the frame is the column's length), and the entropy is the negated
sum of probs times their base-2 logarithms, as computed by numpy. -/
noncomputable def colEntropy (counts : List Nat) (nRows : Nat) : ℝ :=
  -((counts.map fun c : ℕ => ((c : ℝ) / (nRows : ℝ)) * Real.logb 2 ((c : ℝ) / (nRows : ℝ))).sum)

/-- Embedding of the conditional entropy entry of generate_basic_stats lines
66-68: present exactly when the unique-value count is below 50. -/
noncomputable def categoricalEntropy (col : List (Option String)) (nRows : Nat) : Option ℝ :=
  if uniqueCount col < 50 then
    some (colEntropy ((valueCounts col).map fun p => p.2) nRows)
  else none

/-- Statistics computed for one datetime column by generate_basic_stats lines
72-78.  A none in min or max models the NaT produced on an all-null column;
range_days is the day difference of max and min when both exist. -/
structure DtStats where
  min : Option Int
  max : Option Int
  range_days : Option Int
  null_count : Nat
deriving DecidableEq

/-- Embedding of the datetime per-column statistics of generate_basic_stats
lines 72-78. -/
def datetimeStats (col : List (Option Int)) : DtStats :=
  let vals := col.filterMap id
  { min := vals.min?
    max := vals.max?
    range_days := do
      let mx ← vals.max?
      let mn ← vals.min?
      pure (mx - mn)
    null_count := col.countP (fun x => x.isNone) }

/-- Storage dtype name of a column, as reported in the dtypes mapping. -/
def dtypeName : ColData → String
  | .numeric _ => "float64"
  | .categorical _ => "object"
  | .datetime _ => "datetime64[ns]"

/-- Null count of a column of any type. -/
def colNullCount : ColData → Nat
  | .numeric v => v.countP (fun x => x.isNone)
  | .categorical v => v.countP (fun x => x.isNone)
  | .datetime v => v.countP (fun x => x.isNone)

/-- Basic dataset statistics of generate_basic_stats lines 18-24: row and
column counts, per-column missing-value counts, per-column dtypes, and the
memory footprint in megabytes (a pandas call, supplied externally). -/
structure BasicStats where
  rows : Nat
  columns : Nat
  missing_values : List (String × Nat)
  dtypes : List (String × String)
  memory_usage : ℚ
deriving DecidableEq

/-- Numeric-columns statistics of generate_basic_stats lines 31-53: the
describe, skew and kurtosis results per column, and the top-correlations list
when more than one numeric column exists. -/
structure NumericStats where
  basic : List (String × List (String × ℚ))
  skew : List (String × ℚ)
  kurtosis : List (String × ℚ)
  top_correlations : Option (List CorrEntry)
deriving DecidableEq

/-- The pandas calls used by generate_basic_stats (describe, skew, kurtosis,
the correlation matrix, memory_usage).  These are external library
collaborators, so they are inputs of the embedding; everything the repository
itself computes from their results is concrete. -/
structure PandasOps where
  describe : List (Option ℚ) → List (String × ℚ)
  skew : List (Option ℚ) → ℚ
  kurtosis : List (Option ℚ) → ℚ
  corr : List (List (Option ℚ)) → Nat → Nat → ℚ
  memoryUsage : DataFrame → ℚ

/-- Numeric columns of the frame, in frame order (select_dtypes on the
numeric bucket). -/
def numericCols (df : DataFrame) : List (String × List (Option ℚ)) :=
  df.cols.filterMap fun nc =>
    match nc.2 with
    | .numeric v => some (nc.1, v)
    | _ => none

/-- Categorical-like columns of the frame, in frame order. -/
def categoricalCols (df : DataFrame) : List (String × List (Option String)) :=
  df.cols.filterMap fun nc =>
    match nc.2 with
    | .categorical v => some (nc.1, v)
    | _ => none

/-- Datetime columns of the frame, in frame order. -/
def datetimeCols (df : DataFrame) : List (String × List (Option Int)) :=
  df.cols.filterMap fun nc =>
    match nc.2 with
    | .datetime v => some (nc.1, v)
    | _ => none

/-- Embedding of DataIngestion.generate_basic_stats (src/data_ingestion.py
lines 5-81): the four-part result of basic, numeric, categorical (per column
the statistics and the optional entropy entry) and datetime statistics.  The
context parameter is accepted, exactly as in the source signature, and does
not occur in the computation. -/
noncomputable def generate_basic_stats (ops : PandasOps) (df : DataFrame)
    (context : Option (List (String × String))) :
    BasicStats × Option NumericStats × List (String × CatStats × Option ℝ) ×
      List (String × DtStats) :=
  let basic : BasicStats :=
    { rows := df.nrows
      columns := df.cols.length
      missing_values := df.cols.map fun nc => (nc.1, colNullCount nc.2)
      dtypes := df.cols.map fun nc => (nc.1, dtypeName nc.2)
      memory_usage := ops.memoryUsage df }
  let numeric := numericCols df
  let nstats : Option NumericStats :=
    if numeric.length > 0 then
      some { basic := numeric.map fun nc => (nc.1, ops.describe nc.2)
             skew := numeric.map fun nc => (nc.1, ops.skew nc.2)
             kurtosis := numeric.map fun nc => (nc.1, ops.kurtosis nc.2)
             top_correlations :=
               if numeric.length > 1 then
                 some (topCorrelations numeric.length (ops.corr (numeric.map fun nc => nc.2)))
               else none }
    else none
  let cstats := (categoricalCols df).map fun nc =>
    (nc.1, categoricalStats nc.2, categoricalEntropy nc.2 df.nrows)
  let dstats := (datetimeCols df).map fun nc => (nc.1, datetimeStats nc.2)
  (basic, nstats, cstats, dstats)

/-! ## Model of the statistics serialization and the report text assembly
(src/main.py lines 58-62 and 98-105) -/

/-- Model of the JSON-serializable statistics summary passed to json.dumps in
src/main.py line 60: null, booleans, integers, strings, arrays and objects
(values that json cannot serialize are coerced to strings by the default
argument, so they appear as the jstr case; floats are likewise representable
through jnum and jstr without affecting the text-shape facts proved here). -/
inductive Json where
  | jnull
  | jbool (b : Bool)
  | jnum (n : Int)
  | jstr (s : String)
  | jarr (items : List Json)
  | jobj (fields : List (String × Json))

/-- Decimal digit character. -/
def digitChar : Nat → Char
  | 0 => '0'
  | 1 => '1'
  | 2 => '2'
  | 3 => '3'
  | 4 => '4'
  | 5 => '5'
  | 6 => '6'
  | 7 => '7'
  | 8 => '8'
  | _ => '9'

/-- Decimal representation of a natural number as digit characters. -/
def natChars (n : Nat) : List Char :=
  if h : n < 10 then [digitChar n]
  else natChars (n / 10) ++ [digitChar (n % 10)]
decreasing_by exact Nat.div_lt_self (by omega) (by omega)

/-- Decimal representation of an integer. -/
def intRepr (n : Int) : List Char :=
  if n < 0 then '-' :: natChars n.natAbs else natChars n.toNat

/-- Hexadecimal digit character. -/
def hexChar : Nat → Char
  | 10 => 'a'
  | 11 => 'b'
  | 12 => 'c'
  | 13 => 'd'
  | 14 => 'e'
  | 15 => 'f'
  | n => digitChar n

/-- Model of the escaping json.dumps applies inside string literals (with the
default ascii-only output): quote, backslash and the common control characters
get two-character escapes, printable ascii passes through, and everything else
becomes a six-character unicode escape.  No branch ever emits a newline
character. -/
def escapeChar (c : Char) : List Char :=
  if c = '"' then ['\\', '"']
  else if c = '\\' then ['\\', '\\']
  else if c = '\n' then ['\\', 'n']
  else if c = '\r' then ['\\', 'r']
  else if c = '\t' then ['\\', 't']
  else if 32 ≤ c.toNat ∧ c.toNat ≤ 126 then [c]
  else ['\\', 'u', hexChar (c.toNat / 4096 % 16), hexChar (c.toNat / 256 % 16),
    hexChar (c.toNat / 16 % 16), hexChar (c.toNat % 16)]

/-- Escaped body of a JSON string literal. -/
def escape (l : List Char) : List Char := l.flatMap escapeChar

/-- Quoted JSON string literal. -/
def strLit (s : String) : List Char := '"' :: (escape s.data ++ ['"'])

/-- Indentation of the given nesting level for json.dumps with indent 2. -/
def ind (lvl : Nat) : List Char := List.replicate (2 * lvl) ' '

/-- Prepend a prefix to the first line of a block of lines. -/
def prefixFirst (p : List Char) : List (List Char) → List (List Char)
  | [] => [p]
  | l :: ls => (p ++ l) :: ls

/-- Append a character to the last line of a block of lines. -/
def appendLast (c : Char) : List (List Char) → List (List Char)
  | [] => []
  | [l] => [l ++ [c]]
  | l :: l' :: ls => l :: appendLast c (l' :: ls)

/-- Lay out the line blocks of the items of an array or object: indent each
block's first line, append the separating comma to every block but the last. -/
def layoutItems (indent : List Char) : List (List (List Char)) → List (List Char)
  | [] => []
  | [b] => prefixFirst indent b
  | b :: b' :: bs => appendLast ',' (prefixFirst indent b) ++ layoutItems indent (b' :: bs)

/-- Model of json.dumps with indent 2, producing the output line by line:
scalars are single lines, non-empty arrays and objects open with their
bracket, lay out one indented block per item (object items prefixed by the
quoted key and a colon) and close with an indented bracket.  Joining these
lines with newlines gives exactly the pretty-printed output text. -/
def dumpLines : Json → Nat → List (List Char)
  | .jnull, _ => ["null".data]
  | .jbool true, _ => ["true".data]
  | .jbool false, _ => ["false".data]
  | .jnum n, _ => [intRepr n]
  | .jstr s, _ => [strLit s]
  | .jarr [], _ => ["[]".data]
  | .jarr (x :: xs), lvl =>
    "[".data :: (layoutItems (ind (lvl + 1))
        ((x :: xs).attach.map fun v => dumpLines v.1 (lvl + 1))
      ++ [ind lvl ++ "]".data])
  | .jobj [], _ => ["{}".data]
  | .jobj (f :: fs), lvl =>
    "\x7b".data :: (layoutItems (ind (lvl + 1))
        ((f :: fs).attach.map fun kv =>
          prefixFirst (strLit kv.1.1 ++ ": ".data) (dumpLines kv.1.2 (lvl + 1)))
      ++ [ind lvl ++ "\x7d".data])
termination_by j _ => sizeOf j
decreasing_by
  · have h := List.sizeOf_lt_of_mem v.2
    simp only [Json.jarr.sizeOf_spec]
    omega
  · have h := List.sizeOf_lt_of_mem kv.2
    have h2 : sizeOf kv.1.2 < sizeOf kv.1 := by
      obtain ⟨⟨a, b⟩, hm⟩ := kv
      simp
    simp only [Json.jobj.sizeOf_spec]
    omega

/-- Join lines with newline characters. -/
def joinLines : List (List Char) → List Char
  | [] => []
  | [l] => l
  | l :: l' :: ls => l ++ '\n' :: joinLines (l' :: ls)

/-- Model of json.dumps of the statistics summary with indent 2, as called at
src/main.py line 60. -/
def dumps (j : Json) : String := ⟨joinLines (dumpLines j 0)⟩

/-- Textual form of the narrative placed in the report: the string itself, or
the string form of the null value when the adapter returned none
(src/main.py line 98). -/
def aiRepr (ai : Option String) : String :=
  match ai with
  | some s => s
  | none => "None"

/-- Embedding of the combined report text of src/main.py lines 100-105. -/
def report_text (basic_text : String) (ai : Option String) : String :=
  "=== BASIC STATISTICS ===\n" ++ basic_text ++ "\n\n=== AI-INTERPRETATION ===\n" ++ aiRepr ai

/-- The marker separating the statistics section from the narrative section in
the combined report text. -/
def aiMarker : List Char := "\n\n=== AI-INTERPRETATION ===\n".data

/-- Return the text after the first occurrence of the marker, or none if the
marker does not occur.  Modelled from the spec: the repository itself contains
no parser for the report, and the specified round trip reads the section
following the AI-INTERPRETATION marker back out of the assembled text. -/
def findAfter (marker : List Char) : List Char → Option (List Char)
  | [] => if marker.isEmpty then some [] else none
  | c :: rest =>
    if marker.isPrefixOf (c :: rest) then some ((c :: rest).drop marker.length)
    else findAfter marker rest

/-- Parse the narrative section back out of a combined report text.  Modelled
from the spec (section 8.8): the text following the AI-INTERPRETATION
marker. -/
def parseAiSection (t : String) : Option String :=
  (findAfter aiMarker t.data).map fun l => (⟨l⟩ : String)

/-- Absence of two consecutive newline characters in a text: no adjacent pair
of characters consists of two newlines. -/
def noNN (l : List Char) : Prop := l.Chain' fun a b => ¬(a = '\n' ∧ b = '\n')

/-- A well-formed output line of the serializer: nonempty and containing no
newline character. -/
def goodLine (l : List Char) : Prop := l ≠ [] ∧ '\n' ∉ l

/-! ## Embedding of src/pdf_report.py (PDFReportGenerator.generate_pdf_report)
and src/main.py (generate_report) -/

/-- Model of one flowable appended to the PDF story: a paragraph with its
style name, a spacer, an embedded image, or a page break. -/
inductive StoryElem where
  | para (text : String) (style : String)
  | spacer
  | image (path : String)
  | pageBreak
deriving DecidableEq, Repr

/-- Model of one chart path as the PDF builder sees it: the path string,
whether the file exists, its suffix, and whether the reportlab Image call
succeeds on it (the file is a readable image). -/
structure VizFile where
  path : String
  fileExists : Bool
  suffix : String
  readable : Bool
deriving DecidableEq, Repr

/-- The image suffixes accepted at src/pdf_report.py line 147. -/
def imageSuffixes : List String := [".png", ".jpg", ".jpeg"]

/-- Model of the Python str.lower call on a suffix: lowercase each
character. -/
def lowerStr (s : String) : String := ⟨s.data.map Char.toLower⟩

/-- Embedding of the per-chart handling of generate_pdf_report lines 143-154:
a path is embedded (image plus spacer) only when the file exists and has an
image suffix; if the Image call then fails, an error paragraph replaces it;
a path failing the exists-and-suffix test contributes nothing. -/
def vizElems (v : VizFile) : List StoryElem :=
  if v.fileExists && imageSuffixes.contains (lowerStr v.suffix) then
    if v.readable then [StoryElem.image v.path, StoryElem.spacer]
    else [StoryElem.para ("Error loading visualization: " ++ v.path) "Normal"]
  else []

/-- First-match lookup of a key in the fields of a JSON object, modeling the
Python dict operations on the parsed statistics. -/
def jLookup (fields : List (String × Json)) (k : String) : Option Json :=
  match fields with
  | [] => none
  | f :: fs => if f.1 = k then some f.2 else jLookup fs k

/-- Model of the Python str form of a parsed JSON value as interpolated into
an f-string.  Scalars render exactly; container reprs are abbreviated, and no
claim depends on the interpolated text of containers. -/
def pyStr : Json → String
  | .jnull => "None"
  | .jbool true => "True"
  | .jbool false => "False"
  | .jnum n => ⟨intRepr n⟩
  | .jstr s => s
  | .jarr _ => "[...]"
  | .jobj _ => "{...}"

/-- Interpolation of a looked-up value with the default string fallback, as
in basic.get with default (src/pdf_report.py lines 174-175). -/
def getStr (fields : List (String × Json)) (k : String) : String :=
  match jLookup fields k with
  | some v => pyStr v
  | none => "N/A"

/-- Model of the .2f format specifier applied to the looked-up memory_usage
value (src/pdf_report.py line 176): a number formats with two decimals, while
the default string fallback (key missing) and any non-number raise ValueError
because the float format spec is invalid for them. -/
def fmt2f : Option Json → Except String String
  | some (.jnum n) => .ok ((⟨intRepr n⟩ : String) ++ ".00")
  | _ => .error "ValueError: Unknown format code"

/-- Embedding of PDFReportGenerator._format_statistics_for_pdf
(src/pdf_report.py lines 161-184): the dataset-overview block when the
basic_stats key is present (raising when its value does not support dict
access or when memory_usage does not format), then the numeric-columns block
when the numeric_stats key is present.  An error value models an exception
propagating out of the helper. -/
def formatStatisticsForPdf (stats : Json) : Except String String :=
  match stats with
  | .jobj fields =>
    let part1 : Except String (List String) :=
      match jLookup fields "basic_stats" with
      | some (.jobj basic) =>
        match fmt2f (jLookup basic "memory_usage") with
        | .error e => .error e
        | .ok mem => .ok ["<b>Dataset Overview:</b><br/>",
            "Rows: " ++ getStr basic "rows" ++ "<br/>",
            "Columns: " ++ getStr basic "columns" ++ "<br/>",
            "Memory Usage: " ++ mem ++ " MB<br/><br/>"]
      | some _ => .error "AttributeError: object has no attribute get"
      | none => .ok []
    match part1 with
    | .error e => .error e
    | .ok l1 =>
      match jLookup fields "numeric_stats" with
      | some (.jobj numeric) =>
        .ok (String.join (l1 ++ ["<b>Numeric Columns Summary:</b><br/>"] ++
          (match jLookup numeric "basic" with
           | some _ => ["Descriptive statistics available for numeric columns<br/><br/>"]
           | none => [])))
      | some (.jstr _) => .ok (String.join (l1 ++ ["<b>Numeric Columns Summary:</b><br/>"]))
      | some (.jarr _) => .ok (String.join (l1 ++ ["<b>Numeric Columns Summary:</b><br/>"]))
      | some _ => .error "TypeError: argument is not iterable"
      | none => .ok (String.join l1)
  | .jarr _ => .ok ""
  | .jstr _ => .ok ""
  | _ => .error "TypeError: argument is not iterable"

/-- Embedding of the statistics section of generate_pdf_report lines 109-122.
The basic text handed in is json.dumps of the summary (src/main.py line 60 and
src/pdf_report.py lines 200-203), so the json.loads call recovers exactly the
summary value (the parse-serialize inverse law of the json library) and the
JSONDecodeError branch is unreachable on this input.  Any exception inside the
formatting helper is caught by the surrounding try and replaced by an error
paragraph, so this section always contributes exactly one paragraph and never
aborts. -/
def pdfStatsSection (stats : Json) : StoryElem :=
  match formatStatisticsForPdf stats with
  | .ok t => .para t "CustomBody"
  | .error e => .para ("Error processing statistics: " ++ e) "Normal"

/-- Embedding of the insights text of generate_pdf_report lines 129-134 for a
string-or-null narrative: the narrative string, or the string form of the null
value, with newlines replaced by break tags (the response-object branch at
line 131 does not apply to a string or null value). -/
def pdfAiText (ai : Option String) : String :=
  (aiRepr ai).replace "\n" "<br/>"

/-- Embedding of the story construction of generate_pdf_report
(src/pdf_report.py lines 94-157) with the standalone wrapper's title
(line 197): title block, generation-timestamp paragraph (the timestamp text
itself comes from the clock and is represented by a fixed placeholder),
statistics section, insights section, and, when chart paths were supplied, a
page break, the visualizations heading and the per-chart elements. -/
def generate_pdf_report (stats : Json) (ai : Option String) (viz : List VizFile) :
    List StoryElem :=
  [StoryElem.para "Comprehensive Data Analysis Report" "CustomTitle", StoryElem.spacer,
    StoryElem.para "Generated on: <timestamp>" "Normal", StoryElem.spacer,
    StoryElem.para "📊 Basic Statistics" "CustomHeading", StoryElem.spacer,
    pdfStatsSection stats,
    StoryElem.spacer,
    StoryElem.para "🤖 AI-Generated Insights" "CustomHeading", StoryElem.spacer,
    StoryElem.para (pdfAiText ai) "CustomBody", StoryElem.spacer]
  ++ (if viz.isEmpty then [] else
      [StoryElem.pageBreak, StoryElem.para "📈 Data Visualizations" "CustomHeading",
        StoryElem.spacer]
      ++ viz.flatMap vizElems)

/-- The pair the orchestrator produces and persists: the PDF document content
and the combined report text written to the text file and returned. -/
structure ReportResult where
  pdfStory : List StoryElem
  textReport : String
deriving DecidableEq

/-- Embedding of generate_report (src/main.py lines 18-122) from the point
where the statistics summary of lines 51-57 exists as a JSON-serializable
value; the frame itself, the pandas statistics calls and the chart renderer
are external collaborators whose outcomes (the summary value and the rendered
chart paths) are inputs here.  Lines 32-36 raise when no API key resolves;
otherwise the summary is serialized (line 60), the LLM adapter is invoked on
the serialized text (line 70), the PDF story is built with the chart paths
(lines 84-89), and the combined report text (lines 98-105) is written and
returned together with the PDF. -/
def generate_report (apiKey : Option String) (basic_summary : Json)
    (model : Backend) (viz : List VizFile) : Except String ReportResult :=
  match apiKey with
  | none => .error "OPENAI_API_KEY not found"
  | some _ =>
    let basic_text := dumps basic_summary
    let ai := generate_ai_summary model basic_text none
    let story := generate_pdf_report basic_summary ai viz
    .ok { pdfStory := story, textReport := report_text basic_text ai }

/-! ## Lemmas about pyStrip and the retry loop -/

theorem head?_dropWhile_not {p : Char → Bool} :
    ∀ {l : List Char} {c : Char}, (l.dropWhile p).head? = some c → p c = false := by
  intro l
  induction l with
  | nil => intro c h; simp [List.dropWhile] at h
  | cons a l ih =>
    intro c h
    rw [List.dropWhile_cons] at h
    by_cases hp : p a
    · simp [hp] at h; exact ih h
    · rw [if_neg hp] at h
      simp only [List.head?_cons, Option.some.injEq] at h
      subst h
      simpa using hp

theorem pyStrip_head_not_ws {s t : String} (h : s = pyStrip t) :
    ∀ c, s.data.head? = some c → c.isWhitespace = false := by
  intro c hc
  subst h
  unfold pyStrip at hc
  simp only [List.head?_reverse] at hc
  have hsuff : ((t.data.dropWhile Char.isWhitespace).reverse.dropWhile Char.isWhitespace)
      <:+ (t.data.dropWhile Char.isWhitespace).reverse := List.dropWhile_suffix _
  obtain ⟨pre, hpre⟩ := hsuff
  have hne : (t.data.dropWhile Char.isWhitespace).reverse.dropWhile Char.isWhitespace ≠ [] := by
    intro hnil
    rw [hnil] at hc
    simp at hc
  have h2 : ((t.data.dropWhile Char.isWhitespace).reverse.dropWhile Char.isWhitespace).getLast?
      = (t.data.dropWhile Char.isWhitespace).reverse.getLast? := by
    conv_rhs => rw [← hpre]
    rw [List.getLast?_append_of_ne_nil _ hne]
  rw [h2, List.getLast?_reverse] at hc
  exact head?_dropWhile_not hc

theorem pyStrip_last_not_ws {s t : String} (h : s = pyStrip t) :
    ∀ c, s.data.getLast? = some c → c.isWhitespace = false := by
  intro c hc
  subst h
  unfold pyStrip at hc
  simp only [List.getLast?_reverse] at hc
  exact head?_dropWhile_not hc

theorem retryLoop_some {model : Backend} {prompt : String} :
    ∀ {fuel start : Nat} {s : String},
      (retryLoop model prompt start fuel).1 = some s →
      ∃ i, attemptOnce model i prompt = .ok s := by
  intro fuel
  induction fuel with
  | zero => intro start s h; simp [retryLoop] at h
  | succ r ih =>
    intro start s h
    rw [retryLoop] at h
    rcases ha : attemptOnce model start prompt with e | t
    · rw [ha] at h
      simp only at h
      exact ih h
    · rw [ha] at h
      simp only at h
      injection h with h
      subst h
      exact ⟨start, ha⟩

/-! ## Claim theorems about src/ai_summary.py -/

theorem generate_ai_summary_none_of_errors (model : Backend) (csv_data : String)
    (context : Option (List (String × String)))
    (h : ∀ i p, ∃ e, model i p = .error e) :
    generate_ai_summary model csv_data context = none ∧
      attemptsMade model csv_data context = 2 := by
  obtain ⟨e0, h0⟩ := h 0 (buildPrompt csv_data context)
  obtain ⟨e1, h1⟩ := h 1 (buildPrompt csv_data context)
  have a0 : attemptOnce model 0 (buildPrompt csv_data context) = .error e0 := by
    simp [attemptOnce, h0]
  have a1 : attemptOnce model 1 (buildPrompt csv_data context) = .error e1 := by
    simp [attemptOnce, h1]
  constructor
  · show (retryLoop model (buildPrompt csv_data context) 0 max_retries).1 = none
    rw [max_retries, show (2 : Nat) = 1 + 1 from rfl, retryLoop, a0]
    simp only
    rw [retryLoop, a1]
    simp [retryLoop]
  · show (retryLoop model (buildPrompt csv_data context) 0 max_retries).2 = 2
    rw [max_retries, show (2 : Nat) = 1 + 1 from rfl, retryLoop, a0]
    simp only
    rw [retryLoop, a1]
    simp [retryLoop]

/-- C1: for every backend that raises on every call, generate_ai_summary
catches each exception, makes exactly 2 attempts, and returns none rather than
raising. -/
theorem generate_ai_summary_always_raising (model : Backend) (csv_data : String)
    (context : Option (List (String × String)))
    (h : ∀ i p, ∃ e, model i p = .error e) :
    generate_ai_summary model csv_data context = none ∧
      attemptsMade model csv_data context = 2 :=
  generate_ai_summary_none_of_errors model csv_data context h

/-- C1 witness: a backend that always raises, at a concrete input. -/
theorem generate_ai_summary_always_raising_witness :
    (∀ i p, ∃ e, (fun (_ : Nat) (_ : String) => (.error "boom" : Except String Response)) i p
        = .error e) ∧
      generate_ai_summary (fun _ _ => .error "boom") "stats" none = none ∧
      attemptsMade (fun _ _ => .error "boom") "stats" none = 2 :=
  ⟨fun _ _ => ⟨"boom", rfl⟩,
    generate_ai_summary_always_raising (fun _ _ => .error "boom") "stats" none
      (fun _ _ => ⟨"boom", rfl⟩)⟩

/-- C3: response normalization tries extractors in exactly the documented
order, first match wins: the object choices[0].message.content shape, then the
dict choices shape, then the text attribute, and finally the string form; in
particular a response exposing both the choices shape and a text attribute
yields the choices content. -/
theorem extract_precedence :
    (∀ (rest : List ObjChoice) (t : String) (text : Option String) (s : String),
      extract (.obj (some (⟨some ⟨some t⟩⟩ :: rest)) text s) = .ok t) ∧
    (∀ (rest : List (Option (Option String))) (t : String) (s : String),
      extract (.dict (some (some (some t) :: rest)) s) = .ok t) ∧
    (∀ (rest : List ObjChoice) (u s : String),
      extract (.obj (some (⟨none⟩ :: rest)) (some u) s) = .ok u) ∧
    (∀ (u s : String), extract (.obj none (some u) s) = .ok u) ∧
    (∀ (s : String), extract (.obj none none s) = .ok s) ∧
    (∀ (rest : List ObjChoice) (s : String),
      extract (.obj (some (⟨none⟩ :: rest)) none s) = .ok s) ∧
    (∀ (s : String), extract (.dict none s) = .ok s) := by
  refine ⟨?_, ?_, ?_, ?_, ?_, ?_, ?_⟩ <;> intros <;> rfl

/-- C10: whenever generate_ai_summary returns a non-null narrative, that
narrative is the extracted response text with leading and trailing whitespace
stripped, and in particular it never begins or ends with whitespace. -/
theorem generate_ai_summary_result_stripped (model : Backend) (csv_data : String)
    (context : Option (List (String × String))) (s : String)
    (h : generate_ai_summary model csv_data context = some s) :
    (∃ i r t, model i (buildPrompt csv_data context) = .ok r ∧
        extract r = .ok t ∧ s = pyStrip t) ∧
      (∀ c, s.data.head? = some c → c.isWhitespace = false) ∧
      (∀ c, s.data.getLast? = some c → c.isWhitespace = false) := by
  obtain ⟨i, hi⟩ := retryLoop_some h
  unfold attemptOnce at hi
  rcases hm : model i (buildPrompt csv_data context) with e | r
  · rw [hm] at hi; exact absurd hi (by simp)
  · rw [hm] at hi
    dsimp only at hi
    rcases he : extract r with e | t
    · rw [he] at hi; exact absurd hi (by simp)
    · rw [he] at hi
      dsimp only at hi
      simp only [Except.ok.injEq] at hi
      refine ⟨⟨i, r, t, hm, he, hi.symm⟩, pyStrip_head_not_ws hi.symm,
        pyStrip_last_not_ws hi.symm⟩

/-- C10 witness: a backend whose response strips to a concrete narrative. -/
theorem generate_ai_summary_result_stripped_witness :
    generate_ai_summary (fun _ _ => .ok (.obj none (some "  hi  ") "ignored")) "stats" none
        = some "hi" ∧
      ((∃ i r t, (fun (_ : Nat) (_ : String) =>
            (.ok (.obj none (some "  hi  ") "ignored") : Except String Response)) i
            (buildPrompt "stats" none) = .ok r ∧
          extract r = .ok t ∧ "hi" = pyStrip t) ∧
        (∀ c, "hi".data.head? = some c → c.isWhitespace = false) ∧
        (∀ c, "hi".data.getLast? = some c → c.isWhitespace = false)) :=
  ⟨rfl, generate_ai_summary_result_stripped
    (fun _ _ => .ok (.obj none (some "  hi  ") "ignored")) "stats" none "hi" rfl⟩

/-! ## Lemmas about the correlations list -/

theorem corrLE_trans : ∀ a b c : CorrEntry, corrLE a b → corrLE b c → corrLE a c := by
  intro a b c hab hbc
  simp only [corrLE, decide_eq_true_eq] at *
  exact le_trans hbc hab

theorem corrLE_total : ∀ a b : CorrEntry, corrLE a b || corrLE b a := by
  intro a b
  simp only [corrLE, Bool.or_eq_true, decide_eq_true_eq]
  exact le_total _ _

theorem mem_correlationsList {n : Nat} {corr : Nat → Nat → ℚ} {e : CorrEntry}
    (he : e ∈ correlationsList n corr) : e.col1 < e.col2 ∧ e.col2 < n := by
  simp only [correlationsList, List.mem_flatMap, List.mem_map] at he
  obtain ⟨i, hi, j, hj, rfl⟩ := he
  rw [List.mem_range] at hi
  rw [List.mem_range'] at hj
  obtain ⟨k, hk, rfl⟩ := hj
  refine ⟨?_, ?_⟩ <;> simp <;> omega

theorem correlationsList_pairs_nodup (n : Nat) (corr : Nat → Nat → ℚ) :
    ((correlationsList n corr).map fun e => (e.col1, e.col2)).Nodup := by
  rw [correlationsList, List.map_flatMap]
  rw [List.nodup_flatMap]
  constructor
  · intro i _
    rw [List.map_map]
    apply List.Nodup.map
    · intro a b hab
      simpa using congrArg Prod.snd hab
    · exact List.nodup_range' _ _
  · have hnd : List.Pairwise (· ≠ ·) (List.range n) := List.nodup_range n
    apply hnd.imp
    intro i j hij
    simp only [Function.onFun, List.disjoint_left, List.map_map, List.mem_map]
    rintro p ⟨a, _, rfl⟩ ⟨b, _, hb⟩
    exact hij (congrArg Prod.fst hb).symm

theorem sortedCorrelations_pairs_nodup (n : Nat) (corr : Nat → Nat → ℚ) :
    ((sortedCorrelations n corr).map fun e => (e.col1, e.col2)).Nodup := by
  have hperm : List.Perm ((sortedCorrelations n corr).map (fun e => (e.col1, e.col2)))
      ((correlationsList n corr).map (fun e => (e.col1, e.col2))) :=
    (List.mergeSort_perm _ _).map _
  exact (correlationsList_pairs_nodup n corr).perm hperm.symm

theorem sortedCorrelations_stable (n : Nat) (corr : Nat → Nat → ℚ) (v : ℚ) :
    (sortedCorrelations n corr).filter (fun e => |e.correlation| == v) =
      (correlationsList n corr).filter (fun e => |e.correlation| == v) := by
  have hmemv : ∀ e ∈ (correlationsList n corr).filter (fun e => |e.correlation| == v),
      |e.correlation| = v := by
    intro e he
    have := List.of_mem_filter he
    simpa using this
  have hpw : ((correlationsList n corr).filter (fun e => |e.correlation| == v)).Pairwise
      (fun a b => corrLE a b = true) := by
    apply List.pairwise_of_forall_mem_list
    intro a ha b hb
    have h1 := hmemv a ha
    have h2 := hmemv b hb
    simp [corrLE, h1, h2]
  have hsub : List.Sublist ((correlationsList n corr).filter (fun e => |e.correlation| == v))
      (sortedCorrelations n corr) :=
    List.sublist_mergeSort corrLE_trans corrLE_total hpw (List.filter_sublist _)
  have hsub2 : List.Sublist ((correlationsList n corr).filter (fun e => |e.correlation| == v))
      ((sortedCorrelations n corr).filter (fun e => |e.correlation| == v)) := by
    have hff := hsub.filter (fun e => |e.correlation| == v)
    simpa [List.filter_filter, Bool.and_self] using hff
  have hlen : ((sortedCorrelations n corr).filter (fun e => |e.correlation| == v)).length =
      ((correlationsList n corr).filter (fun e => |e.correlation| == v)).length :=
    ((List.mergeSort_perm _ _).filter _).length_eq
  exact (hsub2.eq_of_length hlen.symm).symm

/-! ## Claim theorems about src/data_ingestion.py -/

/-- C4: for every dataset with at least 2 numeric columns, top_correlations
has length at most 5, is sorted by descending absolute correlation, enumerates
only index pairs i less than j with no duplicate unordered pair, and breaks
ties by stable order of first encounter (the sorted list restricted to any
absolute-value class equals the enumeration order). -/
theorem topCorrelations_spec (n : Nat) (corr : Nat → Nat → ℚ) (h : 2 ≤ n) :
    (topCorrelations n corr).length ≤ 5 ∧
    (topCorrelations n corr).Pairwise
      (fun a b => |b.correlation| ≤ |a.correlation|) ∧
    (∀ e ∈ topCorrelations n corr, e.col1 < e.col2) ∧
    ((topCorrelations n corr).map fun e => (e.col1, e.col2)).Nodup ∧
    (∀ v : ℚ, (sortedCorrelations n corr).filter (fun e => |e.correlation| == v) =
      (correlationsList n corr).filter (fun e => |e.correlation| == v)) := by
  refine ⟨?_, ?_, ?_, ?_, sortedCorrelations_stable n corr⟩
  · simpa [topCorrelations] using List.length_take_le 5 (sortedCorrelations n corr)
  · have hsorted : ((correlationsList n corr).mergeSort corrLE).Pairwise
        (fun a b => corrLE a b = true) :=
      List.sorted_mergeSort corrLE_trans corrLE_total _
    have hs2 : (sortedCorrelations n corr).Pairwise (fun a b => corrLE a b = true) := hsorted
    have := hs2.sublist (List.take_sublist 5 _)
    exact this.imp (by intro a b hab; simpa [corrLE] using hab)
  · intro e he
    have hmem : e ∈ correlationsList n corr := by
      have hs : e ∈ sortedCorrelations n corr :=
        (List.take_sublist 5 _).subset he
      exact (List.mergeSort_perm _ _).mem_iff.mp hs
    exact (mem_correlationsList hmem).1
  · have hnd := sortedCorrelations_pairs_nodup n corr
    have heq : (topCorrelations n corr).map (fun e => (e.col1, e.col2)) =
        ((sortedCorrelations n corr).map fun e => (e.col1, e.col2)).take 5 := by
      rw [topCorrelations, List.map_take]
    rw [heq]
    exact List.Nodup.sublist (List.take_sublist 5 _) hnd

/-- C4 witness: a concrete 3-column correlation matrix. -/
theorem topCorrelations_spec_witness :
    2 ≤ 3 ∧
    ((topCorrelations 3 fun i j => (i : ℚ) - j).length ≤ 5 ∧
    (topCorrelations 3 fun i j => (i : ℚ) - j).Pairwise
      (fun a b => |b.correlation| ≤ |a.correlation|) ∧
    (∀ e ∈ topCorrelations 3 fun i j => (i : ℚ) - j, e.col1 < e.col2) ∧
    ((topCorrelations 3 fun i j => (i : ℚ) - j).map fun e => (e.col1, e.col2)).Nodup ∧
    (∀ v : ℚ, (sortedCorrelations 3 fun i j => (i : ℚ) - j).filter
        (fun e => |e.correlation| == v) =
      (correlationsList 3 fun i j => (i : ℚ) - j).filter
        (fun e => |e.correlation| == v))) :=
  ⟨by decide, topCorrelations_spec 3 (fun i j => (i : ℚ) - j) (by decide)⟩

/-- C6: for every categorical column, the binary flag holds exactly when the
column has exactly 2 distinct non-null values, and the entropy entry is
present exactly when the unique-value count is strictly below 50. -/
theorem categorical_binary_entropy_presence (col : List (Option String)) :
    ((categoricalStats col).is_binary = true ↔ (colValues col).toFinset.card = 2) ∧
    (∀ nRows, (categoricalEntropy col nRows).isSome = true ↔
      (categoricalStats col).unique_values < 50) := by
  have hlen : (valueCounts col).length = (colValues col).dedup.length := by
    rw [valueCounts, List.length_mergeSort, List.length_map]
  constructor
  · rw [List.card_toFinset]
    simp only [categoricalStats, beq_iff_eq]
    rw [hlen]
  · intro nRows
    have hu : (categoricalStats col).unique_values = uniqueCount col := rfl
    rw [hu]
    by_cases h : uniqueCount col < 50
    · simp [categoricalEntropy, h]
    · simp [categoricalEntropy, h]

/-! ## Lemmas about the entropy computation -/

theorem list_sum_map_neg (l : List ℕ) (f : ℕ → ℝ) :
    (l.map fun c : ℕ => -(f c)).sum = -((l.map f).sum) := by
  induction l with
  | nil => simp
  | cons a l ih => simp [ih]; ring

theorem list_sum_map_add (l : List ℕ) (f g : ℕ → ℝ) :
    (l.map fun c : ℕ => f c + g c).sum = (l.map f).sum + (l.map g).sum := by
  induction l with
  | nil => simp
  | cons a l ih => simp [ih]; ring

theorem list_sum_map_sub (l : List ℕ) (f g : ℕ → ℝ) :
    (l.map fun c : ℕ => f c - g c).sum = (l.map f).sum - (l.map g).sum := by
  induction l with
  | nil => simp
  | cons a l ih => simp [ih]; ring

theorem list_sum_map_div (l : List ℕ) (f : ℕ → ℝ) (r : ℝ) :
    (l.map fun c : ℕ => f c / r).sum = (l.map f).sum / r := by
  induction l with
  | nil => simp
  | cons a l ih => simp [ih, add_div]

theorem list_sum_map_natCast (l : List ℕ) :
    (l.map fun c : ℕ => (c : ℝ)).sum = ((l.sum : ℕ) : ℝ) := by
  induction l with
  | nil => simp
  | cons a l ih => simp only [List.map_cons, List.sum_cons, Nat.cast_add, ih]

theorem sum_probs_eq_one {counts : List ℕ} {N : ℕ} (hsum : counts.sum = N) (hN : 0 < N) :
    (counts.map fun c : ℕ => (c : ℝ) / (N : ℝ)).sum = 1 := by
  have hNr : (0 : ℝ) < (N : ℝ) := by exact_mod_cast hN
  rw [list_sum_map_div counts (fun c : ℕ => (c : ℝ)) (N : ℝ), list_sum_map_natCast, hsum]
  exact div_self (ne_of_gt hNr)

theorem colEntropy_nonneg (counts : List ℕ) (N : ℕ)
    (hle : ∀ c ∈ counts, c ≤ N) : 0 ≤ colEntropy counts N := by
  rw [colEntropy, neg_nonneg]
  have h0 : ∀ c ∈ counts,
      ((c : ℝ) / (N : ℝ)) * Real.logb 2 ((c : ℝ) / (N : ℝ)) ≤ (fun _ : ℕ => (0 : ℝ)) c := by
    intro c hc
    rcases Nat.eq_zero_or_pos c with rfl | hcpos
    · simp
    · have hNpos : 0 < N := lt_of_lt_of_le hcpos (hle c hc)
      have hNr : (0 : ℝ) < (N : ℝ) := by exact_mod_cast hNpos
      have hx0 : (0 : ℝ) < (c : ℝ) / (N : ℝ) := by positivity
      have hx1 : (c : ℝ) / (N : ℝ) ≤ 1 := by
        rw [div_le_one hNr]
        exact_mod_cast hle c hc
      have hlogb : Real.logb 2 ((c : ℝ) / (N : ℝ)) ≤ 0 :=
        Real.logb_nonpos (by norm_num) (le_of_lt hx0) hx1
      calc ((c : ℝ) / (N : ℝ)) * Real.logb 2 ((c : ℝ) / (N : ℝ))
          ≤ ((c : ℝ) / (N : ℝ)) * 0 := mul_le_mul_of_nonneg_left hlogb (by positivity)
        _ = 0 := mul_zero _
  have := List.sum_le_sum h0
  simpa using this

theorem colEntropy_le_logb (counts : List ℕ) (N : ℕ)
    (hpos : ∀ c ∈ counts, 0 < c) (hsum : counts.sum = N) (hN : 0 < N) :
    colEntropy counts N ≤ Real.logb 2 (counts.length : ℝ) := by
  have hk : 0 < counts.length := by
    rcases counts with _ | ⟨a, l⟩
    · simp at hsum; omega
    · simp
  have hNr : (0 : ℝ) < (N : ℝ) := by exact_mod_cast hN
  have hkr : (0 : ℝ) < (counts.length : ℝ) := by exact_mod_cast hk
  have hlog2 : (0 : ℝ) < Real.log 2 := Real.log_pos (by norm_num)
  have hsum1 : (counts.map fun c : ℕ => (c : ℝ) / (N : ℝ)).sum = 1 := sum_probs_eq_one hsum hN
  have hmain : colEntropy counts N =
      (counts.map fun c : ℕ =>
        ((c : ℝ) / (N : ℝ)) * Real.logb 2 ((N : ℝ) / ((c : ℝ) * (counts.length : ℝ)))).sum
        + Real.logb 2 (counts.length : ℝ) := by
    rw [colEntropy, ← list_sum_map_neg]
    have hpt : ∀ c ∈ counts,
        -((( c : ℝ) / (N : ℝ)) * Real.logb 2 ((c : ℝ) / (N : ℝ))) =
        ((c : ℝ) / (N : ℝ)) * Real.logb 2 ((N : ℝ) / ((c : ℝ) * (counts.length : ℝ)))
          + ((c : ℝ) / (N : ℝ)) * Real.logb 2 (counts.length : ℝ) := by
      intro c hc
      have hc0 : (0 : ℝ) < (c : ℝ) := by exact_mod_cast hpos c hc
      have e1 : Real.logb 2 ((N : ℝ) / ((c : ℝ) * (counts.length : ℝ)))
          + Real.logb 2 (counts.length : ℝ)
          = -(Real.logb 2 ((c : ℝ) / (N : ℝ))) := by
        rw [← Real.logb_mul (by positivity) (ne_of_gt hkr)]
        have harg : (N : ℝ) / ((c : ℝ) * (counts.length : ℝ)) * (counts.length : ℝ)
            = ((c : ℝ) / (N : ℝ))⁻¹ := by
          field_simp
          ring
        rw [harg, Real.logb_inv]
      calc -(((c : ℝ) / (N : ℝ)) * Real.logb 2 ((c : ℝ) / (N : ℝ)))
          = ((c : ℝ) / (N : ℝ)) * (-(Real.logb 2 ((c : ℝ) / (N : ℝ)))) := by ring
        _ = ((c : ℝ) / (N : ℝ)) *
            (Real.logb 2 ((N : ℝ) / ((c : ℝ) * (counts.length : ℝ)))
              + Real.logb 2 (counts.length : ℝ)) := by rw [e1]
        _ = _ := by ring
    rw [List.map_congr_left hpt, list_sum_map_add]
    have hstep3 : (counts.map fun c : ℕ =>
        ((c : ℝ) / (N : ℝ)) * Real.logb 2 (counts.length : ℝ)).sum
        = Real.logb 2 (counts.length : ℝ) := by
      rw [List.sum_map_mul_right, hsum1, one_mul]
    rw [hstep3]
  have hb : (counts.map fun c : ℕ =>
      ((c : ℝ) / (N : ℝ)) * Real.logb 2 ((N : ℝ) / ((c : ℝ) * (counts.length : ℝ)))).sum
      ≤ (counts.map fun c : ℕ =>
        ((1 : ℝ) / (counts.length : ℝ) - (c : ℝ) / (N : ℝ)) / Real.log 2).sum := by
    apply List.sum_le_sum
    intro c hc
    have hc0 : (0 : ℝ) < (c : ℝ) := by exact_mod_cast hpos c hc
    have hx : (0 : ℝ) < (N : ℝ) / ((c : ℝ) * (counts.length : ℝ)) := by positivity
    have hlogle : Real.log ((N : ℝ) / ((c : ℝ) * (counts.length : ℝ)))
        ≤ (N : ℝ) / ((c : ℝ) * (counts.length : ℝ)) - 1 :=
      Real.log_le_sub_one_of_pos hx
    have hlb : Real.logb 2 ((N : ℝ) / ((c : ℝ) * (counts.length : ℝ)))
        ≤ ((N : ℝ) / ((c : ℝ) * (counts.length : ℝ)) - 1) / Real.log 2 := by
      rw [Real.logb]
      exact (div_le_div_iff_of_pos_right hlog2).mpr hlogle
    calc ((c : ℝ) / (N : ℝ)) * Real.logb 2 ((N : ℝ) / ((c : ℝ) * (counts.length : ℝ)))
        ≤ ((c : ℝ) / (N : ℝ)) *
          (((N : ℝ) / ((c : ℝ) * (counts.length : ℝ)) - 1) / Real.log 2) :=
          mul_le_mul_of_nonneg_left hlb (by positivity)
      _ = ((1 : ℝ) / (counts.length : ℝ) - (c : ℝ) / (N : ℝ)) / Real.log 2 := by
          have h1 : (c : ℝ) ≠ 0 := ne_of_gt hc0
          have h2 : (N : ℝ) ≠ 0 := ne_of_gt hNr
          have h3 : (counts.length : ℝ) ≠ 0 := ne_of_gt hkr
          have h4 : Real.log 2 ≠ 0 := ne_of_gt hlog2
          field_simp
          ring
  have hzero : (counts.map fun c : ℕ =>
      ((1 : ℝ) / (counts.length : ℝ) - (c : ℝ) / (N : ℝ)) / Real.log 2).sum = 0 := by
    rw [list_sum_map_div counts
      (fun c : ℕ => (1 : ℝ) / (counts.length : ℝ) - (c : ℝ) / (N : ℝ)) (Real.log 2)]
    rw [list_sum_map_sub counts (fun _ => (1 : ℝ) / (counts.length : ℝ))
      (fun c : ℕ => (c : ℝ) / (N : ℝ))]
    have hconst : (counts.map fun _ => (1 : ℝ) / (counts.length : ℝ)).sum = 1 := by
      rw [List.map_const', List.sum_replicate, nsmul_eq_mul]
      field_simp
    rw [hconst, hsum1]
    simp
  rw [hmain]
  have hfinal := le_trans hb (le_of_eq hzero)
  linarith

theorem valueCounts_pos (col : List (Option String)) :
    ∀ c ∈ (valueCounts col).map fun p => p.2, 0 < c := by
  intro c hc
  simp only [List.mem_map] at hc
  obtain ⟨p, hp, rfl⟩ := hc
  rw [valueCounts, List.mem_mergeSort, List.mem_map] at hp
  obtain ⟨v, hv, rfl⟩ := hp
  simp only
  rw [List.count_pos_iff]
  exact List.mem_dedup.mp hv

theorem valueCounts_sum (col : List (Option String)) :
    ((valueCounts col).map fun p => p.2).sum = (colValues col).length := by
  have hperm : List.Perm (valueCounts col)
      (((colValues col).dedup).map fun v => (v, (colValues col).count v)) :=
    List.mergeSort_perm _ _
  have h2 := (hperm.map fun p : String × ℕ => p.2).sum_eq
  rw [h2, List.map_map]
  exact List.sum_map_count_dedup_eq_length _

theorem colValues_length (col : List (Option String)) (h : ∀ x ∈ col, x ≠ none) :
    (colValues col).length = col.length := by
  induction col with
  | nil => rfl
  | cons a l ih =>
    rcases a with _ | y
    · exact absurd rfl (h none (List.mem_cons_self _ _))
    · have ih' := ih fun x hx => h x (List.mem_cons_of_mem _ hx)
      simp only [colValues, List.filterMap_cons] at *
      simp [ih']

/-- C5 counterexample: on the two-row column holding one value and one null,
the entropy entry equals one half, which exceeds the base-2 logarithm of the
unique-value count 1 (zero): the divisor is the row count including nulls, so
the probabilities do not sum to 1 and the claimed upper bound fails. -/
theorem categoricalEntropy_counterexample :
    ∃ e : ℝ, categoricalEntropy [some "a", none]
        ([some "a", none] : List (Option String)).length = some e ∧
      ¬(e ≤ Real.logb 2 ((uniqueCount [some "a", none] : ℕ) : ℝ)) := by
  have hvc : valueCounts [some "a", none] = [("a", 1)] := by
    rw [valueCounts, show colValues [some "a", none] = ["a"] from rfl]
    rw [show ((["a"].dedup).map fun v => (v, ["a"].count v)) = [("a", 1)] from rfl]
    exact List.mergeSort_singleton _
  have hu : uniqueCount [some "a", none] = 1 := by
    rw [uniqueCount, hvc]
    rfl
  refine ⟨colEntropy [1] 2, ?_, ?_⟩
  · rw [categoricalEntropy, if_pos (by rw [hu]; norm_num), hvc]
    rfl
  · rw [hu]
    have h1 : colEntropy [1] 2 = 1 / 2 := by
      rw [colEntropy]
      simp only [List.map_cons, List.map_nil, List.sum_cons, List.sum_nil]
      rw [show ((1 : ℕ) : ℝ) / ((2 : ℕ) : ℝ) = (2 : ℝ)⁻¹ by norm_num]
      rw [Real.logb_inv, Real.logb_self_eq_one (by norm_num)]
      ring
    rw [h1, Nat.cast_one, Real.logb_one]
    norm_num

/-- C5 amended: for every categorical column with an entropy entry, the entropy
is at least 0; and when the column has no null values (so the probabilities
are genuinely normalized) it is also at most the base-2 logarithm of the
unique-value count.  With nulls present the upper bound can fail, as the
counterexample shows. -/
theorem categoricalEntropy_bounds (col : List (Option String)) (e : ℝ)
    (he : categoricalEntropy col col.length = some e) :
    0 ≤ e ∧ ((∀ x ∈ col, x ≠ none) →
      e ≤ Real.logb 2 ((uniqueCount col : ℕ) : ℝ)) := by
  rw [categoricalEntropy] at he
  by_cases h : uniqueCount col < 50
  · rw [if_pos h] at he
    have he' : e = colEntropy ((valueCounts col).map fun p => p.2) col.length := by
      injection he with h'
      exact h'.symm
    subst he'
    constructor
    · apply colEntropy_nonneg
      intro c hc
      simp only [List.mem_map] at hc
      obtain ⟨p, hp, rfl⟩ := hc
      rw [valueCounts, List.mem_mergeSort, List.mem_map] at hp
      obtain ⟨v, _, rfl⟩ := hp
      exact le_trans (List.count_le_length _ _) (List.length_filterMap_le _ _)
    · intro hnn
      have hlen : ((valueCounts col).map fun p : String × ℕ => p.2).length
          = uniqueCount col := by
        rw [List.length_map]
        rfl
      rcases Nat.eq_zero_or_pos col.length with hz | hpos2
      · have hcol : col = [] := List.length_eq_zero.mp hz
        subst hcol
        have hvc0 : valueCounts ([] : List (Option String)) = [] := by
          rw [valueCounts, show colValues ([] : List (Option String)) = [] from rfl]
          exact List.mergeSort_nil
        rw [show colEntropy ((valueCounts ([] : List (Option String))).map
            fun p : String × ℕ => p.2) (([] : List (Option String)).length)
            = 0 by rw [hvc0]; simp [colEntropy]]
        rw [show uniqueCount ([] : List (Option String)) = 0 by rw [uniqueCount, hvc0]; rfl]
        simp
      · rw [← hlen]
        apply colEntropy_le_logb
        · exact valueCounts_pos col
        · rw [valueCounts_sum, colValues_length col hnn]
        · exact hpos2
  · rw [if_neg h] at he
    exact absurd he (by simp)

/-- C5 amended witness: a concrete null-free column. -/
theorem categoricalEntropy_bounds_witness :
    categoricalEntropy [some "a", some "a"]
        ([some "a", some "a"] : List (Option String)).length = some (colEntropy [2] 2) ∧
      (0 ≤ colEntropy [2] 2 ∧
        ((∀ x ∈ ([some "a", some "a"] : List (Option String)), x ≠ none) →
          colEntropy [2] 2 ≤ Real.logb 2 ((uniqueCount [some "a", some "a"] : ℕ) : ℝ))) := by
  have hvc : valueCounts [some "a", some "a"] = [("a", 2)] := by
    rw [valueCounts, show colValues [some "a", some "a"] = ["a", "a"] from rfl]
    rw [show ((["a", "a"].dedup).map fun v => (v, ["a", "a"].count v)) = [("a", 2)] from rfl]
    exact List.mergeSort_singleton _
  have hce : categoricalEntropy [some "a", some "a"]
      ([some "a", some "a"] : List (Option String)).length = some (colEntropy [2] 2) := by
    rw [categoricalEntropy, if_pos (by rw [uniqueCount, hvc]; norm_num), hvc]
    rfl
  exact ⟨hce, categoricalEntropy_bounds _ _ hce⟩

/-- C9: generate_basic_stats does not depend on its context argument: for any
two context values the four-part result is identical. -/
theorem generate_basic_stats_context_independent (ops : PandasOps) (df : DataFrame)
    (c₁ c₂ : Option (List (String × String))) :
    generate_basic_stats ops df c₁ = generate_basic_stats ops df c₂ := rfl

/-! ## Lemmas about the serializer model: every output line is nonempty and
newline-free -/

theorem digitChar_ne_newline (m : Nat) : digitChar m ≠ '\n' := by
  unfold digitChar
  split <;> decide

theorem hexChar_ne_newline (m : Nat) : hexChar m ≠ '\n' := by
  unfold hexChar
  split
  · decide
  · decide
  · decide
  · decide
  · decide
  · decide
  · exact digitChar_ne_newline _

theorem natChars_good (n : Nat) : natChars n ≠ [] ∧ '\n' ∉ natChars n := by
  induction n using natChars.induct with
  | case1 n h =>
    rw [natChars, dif_pos h]
    refine ⟨by simp, ?_⟩
    intro hm
    rw [List.mem_singleton] at hm
    exact digitChar_ne_newline n hm.symm
  | case2 n h ih =>
    rw [natChars, dif_neg h]
    refine ⟨by simp, ?_⟩
    intro hm
    rw [List.mem_append] at hm
    rcases hm with hm | hm
    · exact ih.2 hm
    · rw [List.mem_singleton] at hm
      exact digitChar_ne_newline _ hm.symm

theorem intRepr_good (n : Int) : intRepr n ≠ [] ∧ '\n' ∉ intRepr n := by
  rw [intRepr]
  by_cases h : n < 0
  · rw [if_pos h]
    refine ⟨by simp, ?_⟩
    intro hm
    rw [List.mem_cons] at hm
    rcases hm with hm | hm
    · exact absurd hm.symm (by decide)
    · exact (natChars_good _).2 hm
  · rw [if_neg h]
    exact natChars_good _

theorem escapeChar_no_newline (c : Char) : '\n' ∉ escapeChar c := by
  rw [escapeChar]
  split
  · decide
  · split
    · decide
    · split
      · decide
      · split
        · decide
        · split
          · decide
          · split
            · rename_i h1 h2 h3 h4 h5 hrange
              intro hm
              rw [List.mem_singleton] at hm
              exact h3 hm.symm
            · intro hm
              simp only [List.mem_cons, List.not_mem_nil, or_false] at hm
              rcases hm with h | h | h | h | h | h
              all_goals first
                | exact absurd h.symm (by decide)
                | exact absurd h.symm (hexChar_ne_newline _)

theorem escape_no_newline (l : List Char) : '\n' ∉ escape l := by
  intro hm
  rw [escape, List.mem_flatMap] at hm
  obtain ⟨c, _, hc⟩ := hm
  exact escapeChar_no_newline c hc

theorem strLit_good (s : String) : strLit s ≠ [] ∧ '\n' ∉ strLit s := by
  refine ⟨by simp [strLit], ?_⟩
  intro hm
  rw [strLit, List.mem_cons] at hm
  rcases hm with hm | hm
  · exact absurd hm.symm (by decide)
  · rw [List.mem_append] at hm
    rcases hm with hm | hm
    · exact escape_no_newline _ hm
    · rw [List.mem_singleton] at hm
      exact absurd hm.symm (by decide)

theorem ind_no_newline (lvl : Nat) : '\n' ∉ ind lvl := by
  intro hm
  rw [ind, List.mem_replicate] at hm
  exact absurd hm.2.symm (by decide)

theorem prefixFirst_good {p : List Char} {bs : List (List Char)}
    (hp : '\n' ∉ p) (hbs : ∀ l ∈ bs, goodLine l) (hne : bs ≠ []) :
    ∀ l ∈ prefixFirst p bs, goodLine l := by
  cases bs with
  | nil => exact absurd rfl hne
  | cons b bs' =>
    intro l hl
    rw [prefixFirst, List.mem_cons] at hl
    rcases hl with rfl | hl
    · have hb := hbs b (List.mem_cons_self _ _)
      constructor
      · intro hnil
        rcases List.append_eq_nil.mp hnil with ⟨-, h2⟩
        exact hb.1 h2
      · intro hm
        rw [List.mem_append] at hm
        rcases hm with hm | hm
        · exact hp hm
        · exact hb.2 hm
    · exact hbs l (List.mem_cons_of_mem _ hl)

theorem prefixFirst_ne_nil (p : List Char) (bs : List (List Char)) :
    prefixFirst p bs ≠ [] := by
  cases bs <;> simp [prefixFirst]

theorem appendLast_good {c : Char} (hc : c ≠ '\n') :
    ∀ {bs : List (List Char)}, (∀ l ∈ bs, goodLine l) →
      ∀ l ∈ appendLast c bs, goodLine l
  | [], _, l, hl => by simp [appendLast] at hl
  | [b], hbs, l, hl => by
    rw [appendLast, List.mem_singleton] at hl
    subst hl
    have hb := hbs b (List.mem_cons_self _ _)
    constructor
    · simp
    · intro hm
      rw [List.mem_append] at hm
      rcases hm with hm | hm
      · exact hb.2 hm
      · rw [List.mem_singleton] at hm
        exact hc hm.symm
  | b :: b' :: bs', hbs, l, hl => by
    rw [appendLast, List.mem_cons] at hl
    rcases hl with rfl | hl
    · exact hbs l (List.mem_cons_self _ _)
    · exact appendLast_good hc (fun x hx => hbs x (List.mem_cons_of_mem _ hx)) l hl

theorem layoutItems_good {indent : List Char} (hind : '\n' ∉ indent) :
    ∀ {blocks : List (List (List Char))},
      (∀ b ∈ blocks, b ≠ [] ∧ ∀ l ∈ b, goodLine l) →
      ∀ l ∈ layoutItems indent blocks, goodLine l
  | [], _, l, hl => by simp [layoutItems] at hl
  | [b], hb, l, hl => by
    rw [layoutItems] at hl
    have hbb := hb b (List.mem_cons_self _ _)
    exact prefixFirst_good hind hbb.2 hbb.1 l hl
  | b :: b' :: bs', hb, l, hl => by
    rw [layoutItems, List.mem_append] at hl
    have hbb := hb b (List.mem_cons_self _ _)
    rcases hl with hl | hl
    · exact appendLast_good (by decide)
        (prefixFirst_good hind hbb.2 hbb.1) l hl
    · exact layoutItems_good hind (fun x hx => hb x (List.mem_cons_of_mem _ hx)) l hl

theorem dumpLines_ne_nil (j : Json) (lvl : Nat) : dumpLines j lvl ≠ [] := by
  rcases j with _ | b | n | s | (_ | ⟨x, xs⟩) | (_ | ⟨f, fs⟩)
  · simp [dumpLines]
  · rcases b with _ | _ <;> simp [dumpLines]
  · simp [dumpLines]
  · simp [dumpLines]
  · simp [dumpLines]
  · simp [dumpLines]
  · simp [dumpLines]
  · simp [dumpLines]

theorem dumpLines_good (j : Json) (lvl : Nat) : ∀ l ∈ dumpLines j lvl, goodLine l := by
  induction j, lvl using dumpLines.induct with
  | case1 =>
    intro l hl
    rw [dumpLines, List.mem_singleton] at hl
    subst hl
    exact ⟨by simp, by decide⟩
  | case2 =>
    intro l hl
    rw [dumpLines, List.mem_singleton] at hl
    subst hl
    exact ⟨by simp, by decide⟩
  | case3 =>
    intro l hl
    rw [dumpLines, List.mem_singleton] at hl
    subst hl
    exact ⟨by simp, by decide⟩
  | case4 n =>
    intro l hl
    rw [dumpLines, List.mem_singleton] at hl
    subst hl
    exact intRepr_good n
  | case5 s =>
    intro l hl
    rw [dumpLines, List.mem_singleton] at hl
    subst hl
    exact strLit_good s
  | case6 =>
    intro l hl
    rw [dumpLines, List.mem_singleton] at hl
    subst hl
    exact ⟨by simp, by decide⟩
  | case7 x xs lvl ih =>
    intro l hl
    rw [dumpLines, List.mem_cons] at hl
    rcases hl with rfl | hl
    · exact ⟨by simp, by decide⟩
    · rw [List.mem_append] at hl
      rcases hl with hl | hl
      · refine layoutItems_good (ind_no_newline _) ?_ l hl
        intro b hb
        rw [List.mem_map] at hb
        obtain ⟨v, hv, rfl⟩ := hb
        exact ⟨dumpLines_ne_nil _ _, ih v⟩
      · rw [List.mem_singleton] at hl
        subst hl
        constructor
        · simp
        · intro hm
          rw [List.mem_append] at hm
          rcases hm with hm | hm
          · exact ind_no_newline _ hm
          · exact absurd (List.mem_singleton.mp hm).symm (by decide)
  | case8 =>
    intro l hl
    rw [dumpLines, List.mem_singleton] at hl
    subst hl
    exact ⟨by simp, by decide⟩
  | case9 f fs lvl ih =>
    intro l hl
    rw [dumpLines, List.mem_cons] at hl
    rcases hl with rfl | hl
    · exact ⟨by simp, by decide⟩
    · rw [List.mem_append] at hl
      rcases hl with hl | hl
      · refine layoutItems_good (ind_no_newline _) ?_ l hl
        intro b hb
        rw [List.mem_map] at hb
        obtain ⟨kv, hkv, rfl⟩ := hb
        refine ⟨prefixFirst_ne_nil _ _, ?_⟩
        apply prefixFirst_good ?_ (ih kv) (dumpLines_ne_nil _ _)
        intro hm
        rw [List.mem_append] at hm
        rcases hm with hm | hm
        · exact (strLit_good _).2 hm
        · rcases List.mem_cons.mp hm with h | h
          · exact absurd h.symm (by decide)
          · rcases List.mem_cons.mp h with h' | h'
            · exact absurd h'.symm (by decide)
            · simp at h'
      · rw [List.mem_singleton] at hl
        subst hl
        constructor
        · simp
        · intro hm
          rw [List.mem_append] at hm
          rcases hm with hm | hm
          · exact ind_no_newline _ hm
          · exact absurd (List.mem_singleton.mp hm).symm (by decide)

/-! ## Lemmas about joining lines and locating the report marker -/

theorem noNN_of_no_newline {l : List Char} (h : '\n' ∉ l) : noNN l := by
  induction l with
  | nil => exact List.chain'_nil
  | cons a l ih =>
    rw [noNN, List.chain'_cons']
    constructor
    · intro y _
      rintro ⟨ha, -⟩
      exact h (by rw [← ha]; exact List.mem_cons_self a l)
    · exact ih fun hm => h (List.mem_cons_of_mem _ hm)

theorem joinLines_ne_nil : ∀ {lines : List (List Char)}, (∀ l ∈ lines, goodLine l) →
    lines ≠ [] → joinLines lines ≠ []
  | [], _, h => absurd rfl h
  | [l], hg, _ => by
    rw [joinLines]
    exact (hg l (List.mem_cons_self _ _)).1
  | l :: l' :: ls, hg, _ => by
    rw [joinLines]
    intro hnil
    rcases List.append_eq_nil.mp hnil with ⟨h1, -⟩
    exact (hg l (List.mem_cons_self _ _)).1 h1

theorem joinLines_good : ∀ {lines : List (List Char)}, (∀ l ∈ lines, goodLine l) →
    noNN (joinLines lines) ∧ (∀ c, (joinLines lines).head? = some c → c ≠ '\n') ∧
      (∀ c, (joinLines lines).getLast? = some c → c ≠ '\n')
  | [], _ => ⟨List.chain'_nil, by simp [joinLines], by simp [joinLines]⟩
  | [l], hg => by
    rw [joinLines]
    have h := hg l (List.mem_cons_self _ _)
    refine ⟨noNN_of_no_newline h.2, ?_, ?_⟩
    · intro c hc hc'
      exact h.2 (hc' ▸ List.mem_of_mem_head? hc)
    · intro c hc hc'
      exact h.2 (hc' ▸ List.mem_of_mem_getLast? hc)
  | l :: l' :: ls, hg => by
    rw [joinLines]
    have hl := hg l (List.mem_cons_self _ _)
    have hg' : ∀ x ∈ l' :: ls, goodLine x := fun x hx => hg x (List.mem_cons_of_mem _ hx)
    have IH := joinLines_good hg'
    have hJne : joinLines (l' :: ls) ≠ [] := joinLines_ne_nil hg' (by simp)
    refine ⟨?_, ?_, ?_⟩
    · rw [noNN, List.chain'_append]
      refine ⟨noNN_of_no_newline hl.2, ?_, ?_⟩
      · rw [List.chain'_cons']
        refine ⟨?_, IH.1⟩
        intro y hy
        rintro ⟨-, hy'⟩
        exact IH.2.1 y hy hy'
      · intro x hx y _
        rintro ⟨hx', -⟩
        exact hl.2 (hx' ▸ List.mem_of_mem_getLast? hx)
    · rcases hl0 : l with _ | ⟨c0, l0⟩
      · exact absurd hl0 hl.1
      · intro c hc hc'
        subst hl0
        simp only [List.cons_append, List.head?_cons, Option.some.injEq] at hc
        apply hl.2
        rw [show ('\n' : Char) = c0 from by rw [hc, hc']]
        exact List.mem_cons_self _ _
    · intro c hc
      rw [List.getLast?_append_of_ne_nil _ (by simp)] at hc
      rw [show ('\n' :: joinLines (l' :: ls)) = ['\n'] ++ joinLines (l' :: ls) from rfl,
        List.getLast?_append_of_ne_nil _ hJne] at hc
      exact IH.2.2 c hc

theorem dumps_good (j : Json) :
    noNN (dumps j).data ∧ (∀ c, (dumps j).data.head? = some c → c ≠ '\n') ∧
      (∀ c, (dumps j).data.getLast? = some c → c ≠ '\n') :=
  joinLines_good (dumpLines_good j 0)

theorem findAfter_of_isPrefixOf {m l : List Char} (h : m.isPrefixOf l) :
    findAfter m l = some (l.drop m.length) := by
  cases l with
  | nil =>
    have hm : m = [] := by
      cases m with
      | nil => rfl
      | cons a m' => simp [List.isPrefixOf] at h
    subst hm
    rfl
  | cons c rest =>
    rw [findAfter, if_pos h]

theorem findAfter_append (m b : List Char) :
    ∀ (a : List Char), (∀ s, s ≠ [] → s <:+ a → ¬ m.isPrefixOf (s ++ m ++ b)) →
      findAfter m (a ++ m ++ b) = some b := by
  intro a
  induction a with
  | nil =>
    intro _
    have hpre : m.isPrefixOf (m ++ b) = true := by
      rw [List.isPrefixOf_iff_prefix]
      exact List.prefix_append m b
    rw [List.nil_append, findAfter_of_isPrefixOf hpre, List.drop_left]
  | cons c a' ih =>
    intro h
    have hnp : ¬ m.isPrefixOf ((c :: a') ++ m ++ b) = true :=
      h (c :: a') (by simp) (List.suffix_refl _)
    have hshape : (c :: a') ++ m ++ b = c :: (a' ++ m ++ b) := by simp
    rw [hshape] at hnp
    rw [hshape, findAfter, if_neg hnp]
    exact ih fun s hs hsuf => h s hs (hsuf.trans (List.suffix_cons c a'))

theorem aiMarker_cons :
    aiMarker = '\n' :: '\n' :: '=' :: "== AI-INTERPRETATION ===\n".data := by decide

theorem noNN_header : noNN "=== BASIC STATISTICS ===\n".data := by
  have hsplit : "=== BASIC STATISTICS ===\n".data
      = "=== BASIC STATISTICS ===".data ++ ['\n'] := by decide
  have hnolf : '\n' ∉ "=== BASIC STATISTICS ===".data := by decide
  rw [noNN, hsplit, List.chain'_append]
  refine ⟨noNN_of_no_newline hnolf, List.chain'_singleton _, ?_⟩
  intro x hx y hy
  rintro ⟨hx', -⟩
  exact hnolf (hx' ▸ List.mem_of_mem_getLast? hx)

theorem marker_not_matching {a : List Char} (b : List Char) (hnn : noNN a) :
    ∀ s, s ≠ [] → s <:+ a → ¬ aiMarker.isPrefixOf (s ++ aiMarker ++ b) := by
  intro s hs hsuf hp
  rcases s with _ | ⟨c, s'⟩
  · exact hs rfl
  rcases s' with _ | ⟨d, s''⟩
  · rw [aiMarker_cons] at hp
    simp only [List.cons_append, List.nil_append, List.isPrefixOf_cons₂,
      Bool.and_eq_true] at hp
    obtain ⟨-, -, hbad, -⟩ := hp
    exact absurd hbad (by decide)
  · rw [aiMarker_cons] at hp
    simp only [List.cons_append, List.isPrefixOf_cons₂, Bool.and_eq_true] at hp
    obtain ⟨hc, hd, -⟩ := hp
    have hc' : c = '\n' := (eq_of_beq hc).symm
    have hd' : d = '\n' := (eq_of_beq hd).symm
    subst hc'
    subst hd'
    have hchain : noNN ('\n' :: '\n' :: s'') := List.Chain'.suffix hnn hsuf
    rw [noNN, List.chain'_cons] at hchain
    exact hchain.1 ⟨rfl, rfl⟩

/-! ## Claim theorem about the report text round trip -/

theorem parseAiSection_report_text (j : Json) (ai : Option String) :
    parseAiSection (report_text (dumps j) ai) = some (aiRepr ai) := by
  have hdata : (report_text (dumps j) ai).data
      = ("=== BASIC STATISTICS ===\n".data ++ (dumps j).data) ++ aiMarker
          ++ (aiRepr ai).data := by
    rw [report_text]
    simp only [String.data_append, aiMarker]
  have hgood := dumps_good j
  have hnn : noNN ("=== BASIC STATISTICS ===\n".data ++ (dumps j).data) := by
    rw [noNN, List.chain'_append]
    refine ⟨noNN_header, hgood.1, ?_⟩
    intro x hx y hy
    rintro ⟨-, hy'⟩
    exact hgood.2.1 y hy hy'
  rw [parseAiSection, hdata, findAfter_append _ _ _ (marker_not_matching _ hnn)]
  rfl

/-- C8: for every statistics summary (as the JSON value serialized into the
report) and every narrative (or the null narrative), assembling the combined
report text and then reading back the section after the AI-INTERPRETATION
marker yields exactly the original narrative string, or the string form of the
null value when the narrative was null. -/
theorem report_roundtrip (j : Json) (ai : Option String) :
    parseAiSection (report_text (dumps j) ai) = some (aiRepr ai) :=
  parseAiSection_report_text j ai

/-! ## Claim theorems about the orchestrator and the PDF chart handling -/

/-- C2: for every run in which the LLM adapter fails on all attempts, the
orchestrator still produces and returns both the text report and the PDF
story, with the string form of the null narrative embedded in the
AI-INTERPRETATION section of the text and in the insights paragraph of the
PDF, instead of failing the run. -/
theorem generate_report_llm_failure (k : String) (stats : Json)
    (model : Backend) (viz : List VizFile)
    (hfail : ∀ i p, ∃ e, model i p = .error e) :
    ∃ r, generate_report (some k) stats model viz = .ok r ∧
      r.textReport = report_text (dumps stats) none ∧
      parseAiSection r.textReport = some "None" ∧
      StoryElem.para (pdfAiText none) "CustomBody" ∈ r.pdfStory := by
  have hai : generate_ai_summary model (dumps stats) none = none :=
    (generate_ai_summary_none_of_errors model (dumps stats) none hfail).1
  refine ⟨_, rfl, ?_, ?_, ?_⟩
  · show report_text (dumps stats) (generate_ai_summary model (dumps stats) none)
      = report_text (dumps stats) none
    rw [hai]
  · show parseAiSection (report_text (dumps stats)
      (generate_ai_summary model (dumps stats) none)) = some "None"
    rw [hai]
    exact parseAiSection_report_text stats none
  · show StoryElem.para (pdfAiText none) "CustomBody" ∈
      generate_pdf_report stats (generate_ai_summary model (dumps stats) none) viz
    rw [hai, generate_pdf_report]
    rw [List.mem_append]
    left
    simp

/-- C2 witness: a concrete run with an always-raising backend. -/
theorem generate_report_llm_failure_witness :
    (∀ i p, ∃ e, (fun (_ : Nat) (_ : String) => (.error "down" : Except String Response)) i p
        = .error e) ∧
      ∃ r, generate_report (some "key") (Json.jobj []) (fun _ _ => .error "down") [] = .ok r ∧
        r.textReport = report_text (dumps (Json.jobj [])) none ∧
        parseAiSection r.textReport = some "None" ∧
        StoryElem.para (pdfAiText none) "CustomBody" ∈ r.pdfStory :=
  ⟨fun _ _ => ⟨"down", rfl⟩,
    generate_report_llm_failure "key" (Json.jobj []) (fun _ _ => .error "down") []
      (fun _ _ => ⟨"down", rfl⟩)⟩

/-- C7 counterexample: a supplied chart path that does not exist is skipped
silently; no placeholder paragraph (or any other element) is inserted for it
in the assembled document, contradicting the claim that a placeholder note is
inserted in its place. -/
theorem vizElems_missing_counterexample :
    vizElems ⟨"missing.png", false, ".png", true⟩ = [] ∧
      ∀ e ∈ generate_pdf_report (Json.jobj []) (some "narrative")
          [⟨"missing.png", false, ".png", true⟩],
        e ≠ StoryElem.para ("Error loading visualization: missing.png") "Normal" := by
  constructor
  · rfl
  · intro e he
    rw [show generate_pdf_report (Json.jobj []) (some "narrative")
          [⟨"missing.png", false, ".png", true⟩]
        = [StoryElem.para "Comprehensive Data Analysis Report" "CustomTitle", StoryElem.spacer,
            StoryElem.para "Generated on: <timestamp>" "Normal", StoryElem.spacer,
            StoryElem.para "📊 Basic Statistics" "CustomHeading", StoryElem.spacer,
            StoryElem.para "" "CustomBody", StoryElem.spacer,
            StoryElem.para "🤖 AI-Generated Insights" "CustomHeading", StoryElem.spacer,
            StoryElem.para (pdfAiText (some "narrative")) "CustomBody", StoryElem.spacer,
            StoryElem.pageBreak, StoryElem.para "📈 Data Visualizations" "CustomHeading",
            StoryElem.spacer] from rfl] at he
    fin_cases he <;> intro h <;> first
      | exact StoryElem.noConfusion h
      | (injection h with h1 h2
         first
           | exact absurd h2 (by decide)
           | exact absurd h1 (by decide))

/-- C7 amended: a supplied chart path that does not exist or lacks an image
suffix is skipped silently with no placeholder; a path that exists with an
image suffix but cannot be loaded is replaced by an error paragraph; a
loadable one is embedded; in every case the builder continues (it is a total
function of its inputs), so PDF generation never aborts on a bad chart
path. -/
theorem vizElems_spec (v : VizFile) :
    ((v.fileExists = false ∨ imageSuffixes.contains (lowerStr v.suffix) = false) →
      vizElems v = []) ∧
    (v.fileExists = true → imageSuffixes.contains (lowerStr v.suffix) = true →
      v.readable = false →
      vizElems v = [StoryElem.para ("Error loading visualization: " ++ v.path) "Normal"]) ∧
    (v.fileExists = true → imageSuffixes.contains (lowerStr v.suffix) = true →
      v.readable = true → vizElems v = [StoryElem.image v.path, StoryElem.spacer]) := by
  refine ⟨?_, ?_, ?_⟩
  · rintro (h | h) <;> rw [vizElems, h] <;> simp
  · intro h1 h2 h3
    rw [vizElems, h1, h2, h3]
    simp
  · intro h1 h2 h3
    rw [vizElems, h1, h2, h3]
    simp

/-- C7 amended witness: an existing but unloadable chart file yields the
error paragraph. -/
theorem vizElems_spec_witness :
    vizElems ⟨"chart.png", true, ".png", false⟩
      = [StoryElem.para ("Error loading visualization: " ++ "chart.png") "Normal"] :=
  (vizElems_spec ⟨"chart.png", true, ".png", false⟩).2.1 rfl (by decide) rfl

end AutoReport
